import Mathlib

/-!
Shallow embedding of `src/infrastructure/web/controllers/MarketController.ts`
from the forezy-backend repository.

The controller has two handlers:
  * `getMarkets`    — parses a raw query into a `MarketFilters` value (only
    recognized, truthy keys are copied; `limit`/`offset` go through JS
    `parseInt`; `sortBy`/`sortOrder` through an enum allow-list), calls the
    list use case and maps the outcome to an HTTP envelope.
  * `getMarketById` — rejects a falsy (absent or empty) path parameter with
    400, otherwise calls the by-id use case and maps NotFound to 404 and any
    other failure to 500.

The external collaborators (use cases and DTO mapping functions) are
parameters of the embedded handlers: a use case is a function returning
`Except ThrownError α`, matching the TS code which `await`s a promise that
either resolves or throws, and a DTO mapper is a pure function (the spec's
glossary declares DTO mapping pure).
-/

/-- JavaScript numbers as observed by this code: `parseInt` yields either an
integer or the NaN sentinel. -/
inductive JsNumber where
  | nan : JsNumber
  | int (n : Int) : JsNumber
deriving DecidableEq

/-- Whitespace accepted by JS `parseInt` before the number. -/
def isJsSpace (c : Char) : Bool :=
  c = ' ' || c = '\t' || c = '\n' || c = '\r' || c = '\x0b' || c = '\x0c'

/-- Drop leading JS whitespace. -/
def skipSpace : List Char → List Char
  | [] => []
  | c :: cs => if isJsSpace c then skipSpace cs else c :: cs

/-- Value of a digit character in the given radix (10 or 16), if valid. -/
def digitVal (radix : Nat) (c : Char) : Option Nat :=
  let v : Option Nat :=
    if '0' ≤ c ∧ c ≤ '9' then some (c.toNat - '0'.toNat)
    else if 'a' ≤ c ∧ c ≤ 'f' then some (c.toNat - 'a'.toNat + 10)
    else if 'A' ≤ c ∧ c ≤ 'F' then some (c.toNat - 'A'.toNat + 10)
    else none
  match v with
  | some d => if d < radix then some d else none
  | none => none

/-- Longest prefix of valid digits in the given radix. -/
def takeDigits (radix : Nat) : List Char → List Nat
  | [] => []
  | c :: cs =>
    match digitVal radix c with
    | some d => d :: takeDigits radix cs
    | none => []

/-- Accumulate a digit list into a natural number. -/
def digitsToNat (radix : Nat) (ds : List Nat) : Nat :=
  ds.foldl (fun a d => a * radix + d) 0

/-- Model of JS `parseInt(s)` with the radix argument omitted: skip leading
whitespace, read an optional sign, honor a `0x`/`0X` prefix as hexadecimal,
then take the longest run of digits; no digits means NaN, and trailing
garbage is ignored. -/
def parseIntJS (s : String) : JsNumber :=
  let cs := skipSpace s.data
  let signed : Int × List Char :=
    match cs with
    | '-' :: rest => (-1, rest)
    | '+' :: rest => (1, rest)
    | _ => (1, cs)
  let based : Nat × List Char :=
    match signed.2 with
    | '0' :: 'x' :: rest => (16, rest)
    | '0' :: 'X' :: rest => (16, rest)
    | _ => (10, signed.2)
  let ds := takeDigits based.1 based.2
  if ds.isEmpty then JsNumber.nan
  else JsNumber.int (signed.1 * (digitsToNat based.1 ds : Int))

/-- Value stored in a `MarketFilters` slot: `status`, `creatorId`, `sortBy`,
`sortOrder` hold strings; `limit` and `offset` hold JS numbers. -/
inductive FilterVal where
  | str (s : String) : FilterVal
  | num (n : JsNumber) : FilterVal
deriving DecidableEq

/-- The raw Express query object: each key maps to a string value or is
absent (`undefined`). -/
abbrev RawQuery : Type := String → Option String

/-- The `MarketFilters` object built by the controller, modelled as the
key/value entries assigned to it, in assignment order. -/
abbrev MarketFilters : Type := List (String × FilterVal)

/-- One string-valued filter entry: copied verbatim when the query value is
truthy (present and non-empty), per `if (req.query[k]) filters[k] = ...`. -/
def strEntry (q : RawQuery) (k : String) : MarketFilters :=
  match q k with
  | some s => if s = "" then [] else [(k, FilterVal.str s)]
  | none => []

/-- One numeric filter entry: when the query value is truthy, store
`parseInt` of it, per `filters[k] = parseInt(req.query[k])`. -/
def numEntry (q : RawQuery) (k : String) : MarketFilters :=
  match q k with
  | some s => if s = "" then [] else [(k, FilterVal.num (parseIntJS s))]
  | none => []

/-- One enum-checked filter entry: when the query value is truthy it is
stored only if it equals one of the allowed literals, else dropped. -/
def enumEntry (q : RawQuery) (k : String) (allowed : List String) : MarketFilters :=
  match q k with
  | some s => if s = "" then [] else if s ∈ allowed then [(k, FilterVal.str s)] else []
  | none => []

/-- The filter-construction phase of `getMarkets` (lines 45–75 of the
controller): six conditional assignments, in source order. -/
def buildFilters (q : RawQuery) : MarketFilters :=
  strEntry q "status" ++
  strEntry q "creatorId" ++
  numEntry q "limit" ++
  numEntry q "offset" ++
  enumEntry q "sortBy" ["createTms", "resolutionTime"] ++
  enumEntry q "sortOrder" ["asc", "desc"]

/-- A value thrown by a collaborator, as the catch blocks can distinguish it:
an instance of the domain `NotFoundError` class (which extends `Error` and so
carries a message), some other `Error` instance, or a thrown non-`Error`
value. The `NotFoundError` class itself lives outside the visible slice;
modelled from the spec: a distinguishable NotFound kind carrying the failure
message. -/
inductive ThrownError where
  | notFound (message : String) : ThrownError
  | jsError (message : String) : ThrownError
  | nonError : ThrownError
deriving DecidableEq

/-- The message extraction `error instanceof Error ? error.message :
'Unknown error'` used by both 500 branches. -/
def errMessage : ThrownError → String
  | ThrownError.notFound m => m
  | ThrownError.jsError m => m
  | ThrownError.nonError => "Unknown error"

/-- Body of an HTTP response: a success DTO or an error object
`{error, message?}` (absent `message` is `none`). -/
inductive ResBody (D : Type) where
  | success (dto : D) : ResBody D
  | failure (error : String) (message : Option String) : ResBody D
deriving DecidableEq

/-- A response envelope: status code plus JSON body. -/
structure Envelope (D : Type) where
  status : Nat
  body : ResBody D
deriving DecidableEq

/-- Handler `MarketController.getMarkets`: build the filters, run the list
use case, map success to 200 with the DTO and any thrown failure to 500 with
`{error: "Internal server error", message: errMessage e}`. -/
def getMarkets {M D : Type} (execute : MarketFilters → Except ThrownError M)
    (marketListToDto : M → D) (q : RawQuery) : Envelope D :=
  let filters := buildFilters q
  match execute filters with
  | Except.ok result => ⟨200, ResBody.success (marketListToDto result)⟩
  | Except.error e =>
      ⟨500, ResBody.failure "Internal server error" (some (errMessage e))⟩

/-- Handler `MarketController.getMarketById`: a falsy `market_id` (absent or
empty string) yields 400 with `{error: "Market ID is required"}` and an early
return; otherwise the use case runs, success yields 200, a `NotFoundError`
yields 404 with `{error: "Market not found", message}`, and any other
failure yields 500. -/
def getMarketById {M D : Type} (execute : String → Except ThrownError M)
    (marketToDto : M → D) (market_id : Option String) : Envelope D :=
  match market_id with
  | none => ⟨400, ResBody.failure "Market ID is required" none⟩
  | some id =>
    if id = "" then ⟨400, ResBody.failure "Market ID is required" none⟩
    else
      match execute id with
      | Except.ok result => ⟨200, ResBody.success (marketToDto result)⟩
      | Except.error (ThrownError.notFound m) =>
          ⟨404, ResBody.failure "Market not found" (some m)⟩
      | Except.error e =>
          ⟨500, ResBody.failure "Internal server error" (some (errMessage e))⟩

/-- Instrumented run of `getMarkets`: first component is the list of
envelopes emitted through `res` (the handler sends exactly one), second the
list of filter objects passed to the list use case. -/
def getMarketsRun {M D : Type} (execute : MarketFilters → Except ThrownError M)
    (marketListToDto : M → D) (q : RawQuery) :
    List (Envelope D) × List MarketFilters :=
  let filters := buildFilters q
  match execute filters with
  | Except.ok result => ([⟨200, ResBody.success (marketListToDto result)⟩], [filters])
  | Except.error e =>
      ([⟨500, ResBody.failure "Internal server error" (some (errMessage e))⟩], [filters])

/-- Instrumented run of `getMarketById`: envelopes emitted, plus the list of
identifiers passed to the by-id use case (empty when validation fails). -/
def getMarketByIdRun {M D : Type} (execute : String → Except ThrownError M)
    (marketToDto : M → D) (market_id : Option String) :
    List (Envelope D) × List String :=
  match market_id with
  | none => ([⟨400, ResBody.failure "Market ID is required" none⟩], [])
  | some id =>
    if id = "" then ([⟨400, ResBody.failure "Market ID is required" none⟩], [])
    else
      match execute id with
      | Except.ok result => ([⟨200, ResBody.success (marketToDto result)⟩], [id])
      | Except.error (ThrownError.notFound m) =>
          ([⟨404, ResBody.failure "Market not found" (some m)⟩], [id])
      | Except.error e =>
          ([⟨500, ResBody.failure "Internal server error" (some (errMessage e))⟩], [id])

example : parseIntJS "10" = JsNumber.int 10 := by decide
example : parseIntJS "abc" = JsNumber.nan := by decide
example : parseIntJS "  -42xyz" = JsNumber.int (-42) := by decide
example : parseIntJS "0x1A" = JsNumber.int 26 := by decide
example : parseIntJS "" = JsNumber.nan := by decide

/-! Helper lemmas about the individual filter-building blocks. -/

theorem mem_strEntry {q : RawQuery} {k k1 : String} {v : FilterVal}
    (h : (k1, v) ∈ strEntry q k) :
    k1 = k ∧ ∃ s, q k = some s ∧ s ≠ "" ∧ v = FilterVal.str s := by
  unfold strEntry at h
  cases hq : q k with
  | none => rw [hq] at h; simp at h
  | some s =>
      rw [hq] at h
      by_cases hs : s = ""
      · simp [hs] at h
      · simp [hs] at h
        exact ⟨h.1, s, rfl, hs, h.2⟩

theorem mem_numEntry {q : RawQuery} {k k1 : String} {v : FilterVal}
    (h : (k1, v) ∈ numEntry q k) :
    k1 = k ∧ ∃ s, q k = some s ∧ s ≠ "" ∧ v = FilterVal.num (parseIntJS s) := by
  unfold numEntry at h
  cases hq : q k with
  | none => rw [hq] at h; simp at h
  | some s =>
      rw [hq] at h
      by_cases hs : s = ""
      · simp [hs] at h
      · simp [hs] at h
        exact ⟨h.1, s, rfl, hs, h.2⟩

theorem mem_enumEntry {q : RawQuery} {k k1 : String} {allowed : List String}
    {v : FilterVal} (h : (k1, v) ∈ enumEntry q k allowed) :
    k1 = k ∧ ∃ s, q k = some s ∧ s ≠ "" ∧ s ∈ allowed ∧ v = FilterVal.str s := by
  unfold enumEntry at h
  cases hq : q k with
  | none => rw [hq] at h; simp at h
  | some s =>
      rw [hq] at h
      by_cases hs : s = ""
      · simp [hs] at h
      · by_cases ha : s ∈ allowed
        · simp [hs, ha] at h
          exact ⟨h.1, s, rfl, hs, ha, h.2⟩
        · simp [hs, ha] at h

theorem getMarketsRun_calls {M D : Type} (execute : MarketFilters → Except ThrownError M)
    (marketListToDto : M → D) (q : RawQuery) :
    (getMarketsRun execute marketListToDto q).2 = [buildFilters q] := by
  cases hx : execute (buildFilters q) <;> simp [getMarketsRun, hx]

/-! Claim theorems. -/

/-- C1: when the `market_id` path parameter is absent or the empty string,
`getMarketById` returns status 400 with body exactly
`{error: "Market ID is required"}` (no `message` field), and the by-id use
case is never invoked. -/
theorem claim1_falsy_id_rejected_with_400 {M D : Type}
    (execute : String → Except ThrownError M) (marketToDto : M → D)
    (market_id : Option String) (h : market_id = none ∨ market_id = some "") :
    getMarketById execute marketToDto market_id =
      ⟨400, ResBody.failure "Market ID is required" none⟩ ∧
    (getMarketByIdRun execute marketToDto market_id).2 = [] := by
  rcases h with h | h <;> subst h <;> exact ⟨rfl, rfl⟩

theorem claim1_witness :
    getMarketById (fun _ : String => Except.ok (0 : Nat)) (fun n : Nat => n) (some "") =
      ⟨400, ResBody.failure "Market ID is required" none⟩ ∧
    (getMarketByIdRun (fun _ : String => Except.ok (0 : Nat)) (fun n : Nat => n)
      (some "")).2 = [] :=
  claim1_falsy_id_rejected_with_400 _ _ (some "") (Or.inr rfl)

/-- C2: a non-empty identifier whose use case fails with a NotFound-kind
error carrying message `m` yields status 404 with body
`{error: "Market not found", message: m}`. -/
theorem claim2_notfound_maps_to_404 {M D : Type}
    (execute : String → Except ThrownError M) (marketToDto : M → D)
    (id m : String) (hid : id ≠ "")
    (hex : execute id = Except.error (ThrownError.notFound m)) :
    getMarketById execute marketToDto (some id) =
      ⟨404, ResBody.failure "Market not found" (some m)⟩ := by
  simp [getMarketById, hid, hex]

theorem claim2_witness :
    getMarketById (fun _ : String => Except.error (ThrownError.notFound "no market m1"))
      (fun n : Nat => n) (some "m1") =
      ⟨404, ResBody.failure "Market not found" (some "no market m1")⟩ :=
  claim2_notfound_maps_to_404 _ _ "m1" "no market m1" (by decide) rfl

/-- C3: any failure that is not NotFound-kind yields, in both operations,
status 500 with body `{error: "Internal server error", message: m}`, where
`m` is the failure's own message when it carries one (an `Error` instance)
and the fixed string "Unknown error" otherwise. -/
theorem claim3_other_failures_map_to_500 {M D : Type}
    (executeL : MarketFilters → Except ThrownError M)
    (executeI : String → Except ThrownError M) (toDto : M → D)
    (q : RawQuery) (id : String) (e : ThrownError)
    (hid : id ≠ "") (hnf : ∀ m, e ≠ ThrownError.notFound m)
    (hl : executeL (buildFilters q) = Except.error e)
    (hi : executeI id = Except.error e) :
    getMarkets executeL toDto q =
      ⟨500, ResBody.failure "Internal server error" (some (errMessage e))⟩ ∧
    getMarketById executeI toDto (some id) =
      ⟨500, ResBody.failure "Internal server error" (some (errMessage e))⟩ ∧
    (∀ m, e = ThrownError.jsError m → errMessage e = m) ∧
    (e = ThrownError.nonError → errMessage e = "Unknown error") := by
  cases e with
  | notFound m => exact absurd rfl (hnf m)
  | jsError m =>
      refine ⟨by simp [getMarkets, hl], by simp [getMarketById, hid, hi], ?_, ?_⟩
      · intro m2 hm
        rw [hm]; rfl
      · intro hc; cases hc
  | nonError =>
      refine ⟨by simp [getMarkets, hl], by simp [getMarketById, hid, hi], ?_, ?_⟩
      · intro m2 hm; cases hm
      · intro _; rfl

theorem claim3_witness :
    getMarkets (fun _ : MarketFilters => Except.error (ThrownError.jsError "db down"))
      (fun n : Nat => n) (fun _ => none) =
      ⟨500, ResBody.failure "Internal server error"
        (some (errMessage (ThrownError.jsError "db down")))⟩ ∧
    getMarketById (fun _ : String => Except.error (ThrownError.jsError "db down"))
      (fun n : Nat => n) (some "m1") =
      ⟨500, ResBody.failure "Internal server error"
        (some (errMessage (ThrownError.jsError "db down")))⟩ ∧
    (∀ m, ThrownError.jsError "db down" = ThrownError.jsError m →
      errMessage (ThrownError.jsError "db down") = m) ∧
    (ThrownError.jsError "db down" = ThrownError.nonError →
      errMessage (ThrownError.jsError "db down") = "Unknown error") :=
  claim3_other_failures_map_to_500 _ _ _ (fun _ => none) "m1"
    (ThrownError.jsError "db down") (by decide) (by intro m h; cases h) rfl rfl

/-- C4: `getMarkets` only ever returns status 200 or 500; in particular a
NotFound-kind failure from the list use case is mapped to the 500 envelope
(its message passed through), never to 404 or 400. -/
theorem claim4_list_path_only_200_or_500 {M D : Type}
    (execute : MarketFilters → Except ThrownError M) (toDto : M → D) (q : RawQuery) :
    ((getMarkets execute toDto q).status = 200 ∨
      (getMarkets execute toDto q).status = 500) ∧
    (∀ m, execute (buildFilters q) = Except.error (ThrownError.notFound m) →
      getMarkets execute toDto q =
        ⟨500, ResBody.failure "Internal server error" (some m)⟩) := by
  constructor
  · cases hx : execute (buildFilters q) with
    | ok r => exact Or.inl (by simp [getMarkets, hx])
    | error e => exact Or.inr (by simp [getMarkets, hx])
  · intro m hm
    simp [getMarkets, hm, errMessage]

theorem claim4_witness :
    getMarkets (fun _ : MarketFilters => Except.error (ThrownError.notFound "gone"))
      (fun n : Nat => n) (fun _ => none) =
      ⟨500, ResBody.failure "Internal server error" (some "gone")⟩ :=
  (claim4_list_path_only_200_or_500 _ _ _).2 "gone" rfl

/-- C5: the filters object `getMarkets` passes to the list use case contains
only the keys `status`, `creatorId`, `limit`, `offset`, `sortBy`,
`sortOrder`; a key appears only if the corresponding query parameter is
present and non-empty, so unrecognized query keys never appear. -/
theorem claim5_only_recognized_truthy_keys {M D : Type}
    (execute : MarketFilters → Except ThrownError M) (toDto : M → D)
    (q : RawQuery) (k : String) (v : FilterVal)
    (h : (k, v) ∈ buildFilters q) :
    (k = "status" ∨ k = "creatorId" ∨ k = "limit" ∨ k = "offset" ∨
      k = "sortBy" ∨ k = "sortOrder") ∧
    (∃ s, q k = some s ∧ s ≠ "") ∧
    (getMarketsRun execute toDto q).2 = [buildFilters q] := by
  unfold buildFilters at h
  simp only [List.mem_append] at h
  refine ⟨?_, ?_, getMarketsRun_calls execute toDto q⟩
  · rcases h with ((((h | h) | h) | h) | h) | h
    · exact Or.inl (mem_strEntry h).1
    · exact Or.inr (Or.inl (mem_strEntry h).1)
    · exact Or.inr (Or.inr (Or.inl (mem_numEntry h).1))
    · exact Or.inr (Or.inr (Or.inr (Or.inl (mem_numEntry h).1)))
    · exact Or.inr (Or.inr (Or.inr (Or.inr (Or.inl (mem_enumEntry h).1))))
    · exact Or.inr (Or.inr (Or.inr (Or.inr (Or.inr (mem_enumEntry h).1))))
  · rcases h with ((((h | h) | h) | h) | h) | h
    · rcases mem_strEntry h with ⟨hk, s, hs, hne, _⟩; exact ⟨s, hk ▸ hs, hne⟩
    · rcases mem_strEntry h with ⟨hk, s, hs, hne, _⟩; exact ⟨s, hk ▸ hs, hne⟩
    · rcases mem_numEntry h with ⟨hk, s, hs, hne, _⟩; exact ⟨s, hk ▸ hs, hne⟩
    · rcases mem_numEntry h with ⟨hk, s, hs, hne, _⟩; exact ⟨s, hk ▸ hs, hne⟩
    · rcases mem_enumEntry h with ⟨hk, s, hs, hne, _, _⟩; exact ⟨s, hk ▸ hs, hne⟩
    · rcases mem_enumEntry h with ⟨hk, s, hs, hne, _, _⟩; exact ⟨s, hk ▸ hs, hne⟩

theorem claim5_witness :
    ("status" = "status" ∨ "status" = "creatorId" ∨ "status" = "limit" ∨
      "status" = "offset" ∨ "status" = "sortBy" ∨ "status" = "sortOrder") ∧
    (∃ s, (fun k => if k = "status" then some "open" else none) "status" =
      some s ∧ s ≠ "") ∧
    (getMarketsRun (fun _ : MarketFilters => Except.ok (0 : Nat)) (fun n : Nat => n)
      (fun k => if k = "status" then some "open" else none)).2 =
      [buildFilters (fun k => if k = "status" then some "open" else none)] :=
  claim5_only_recognized_truthy_keys (fun _ : MarketFilters => Except.ok (0 : Nat))
    (fun n : Nat => n) (fun k => if k = "status" then some "open" else none)
    "status" (FilterVal.str "open") (by decide)

theorem sortBy_mem_buildFilters {q : RawQuery} {v : FilterVal}
    (h : ("sortBy", v) ∈ buildFilters q) :
    ∃ s, q "sortBy" = some s ∧ s ≠ "" ∧
      (s = "createTms" ∨ s = "resolutionTime") ∧ v = FilterVal.str s := by
  unfold buildFilters at h
  simp only [List.mem_append] at h
  rcases h with ((((h | h) | h) | h) | h) | h
  · exact absurd (mem_strEntry h).1 (by decide)
  · exact absurd (mem_strEntry h).1 (by decide)
  · exact absurd (mem_numEntry h).1 (by decide)
  · exact absurd (mem_numEntry h).1 (by decide)
  · rcases mem_enumEntry h with ⟨_, s, hs, hne, ha, hv⟩
    exact ⟨s, hs, hne, by simpa using ha, hv⟩
  · exact absurd (mem_enumEntry h).1 (by decide)

theorem sortOrder_mem_buildFilters {q : RawQuery} {v : FilterVal}
    (h : ("sortOrder", v) ∈ buildFilters q) :
    ∃ s, q "sortOrder" = some s ∧ s ≠ "" ∧
      (s = "asc" ∨ s = "desc") ∧ v = FilterVal.str s := by
  unfold buildFilters at h
  simp only [List.mem_append] at h
  rcases h with ((((h | h) | h) | h) | h) | h
  · exact absurd (mem_strEntry h).1 (by decide)
  · exact absurd (mem_strEntry h).1 (by decide)
  · exact absurd (mem_numEntry h).1 (by decide)
  · exact absurd (mem_numEntry h).1 (by decide)
  · exact absurd (mem_enumEntry h).1 (by decide)
  · rcases mem_enumEntry h with ⟨_, s, hs, hne, ha, hv⟩
    exact ⟨s, hs, hne, by simpa using ha, hv⟩

/-- C6: the constructed filters contain `sortBy` only with value exactly
`createTms` or `resolutionTime`, and `sortOrder` only with value exactly
`asc` or `desc`; any other supplied value is silently dropped — the key is
omitted and no error envelope results (a successful use case still yields
200). -/
theorem claim6_sort_params_enum_checked {M D : Type} (r : M) (toDto : M → D)
    (q : RawQuery) :
    (∀ v, ("sortBy", v) ∈ buildFilters q →
      v = FilterVal.str "createTms" ∨ v = FilterVal.str "resolutionTime") ∧
    (∀ v, ("sortOrder", v) ∈ buildFilters q →
      v = FilterVal.str "asc" ∨ v = FilterVal.str "desc") ∧
    (∀ s, q "sortBy" = some s → s ≠ "createTms" → s ≠ "resolutionTime" →
      ∀ v, ("sortBy", v) ∉ buildFilters q) ∧
    (∀ s, q "sortOrder" = some s → s ≠ "asc" → s ≠ "desc" →
      ∀ v, ("sortOrder", v) ∉ buildFilters q) ∧
    getMarkets (fun _ => Except.ok r) toDto q = ⟨200, ResBody.success (toDto r)⟩ := by
  refine ⟨?_, ?_, ?_, ?_, rfl⟩
  · intro v h
    rcases sortBy_mem_buildFilters h with ⟨s, _, _, h1 | h1, hv⟩ <;> subst h1
    · exact Or.inl hv
    · exact Or.inr hv
  · intro v h
    rcases sortOrder_mem_buildFilters h with ⟨s, _, _, h1 | h1, hv⟩ <;> subst h1
    · exact Or.inl hv
    · exact Or.inr hv
  · intro s hs h1 h2 v hmem
    rcases sortBy_mem_buildFilters hmem with ⟨s2, hs2, _, hor, _⟩
    have he : s = s2 := by
      rw [hs] at hs2
      exact Option.some.inj hs2
    subst he
    rcases hor with h' | h'
    · exact h1 h'
    · exact h2 h'
  · intro s hs h1 h2 v hmem
    rcases sortOrder_mem_buildFilters hmem with ⟨s2, hs2, _, hor, _⟩
    have he : s = s2 := by
      rw [hs] at hs2
      exact Option.some.inj hs2
    subst he
    rcases hor with h' | h'
    · exact h1 h'
    · exact h2 h'

theorem claim6_witness :
    ("sortBy", FilterVal.str "bogus") ∉ buildFilters
      (fun k => if k = "sortBy" then some "bogus" else none) :=
  (claim6_sort_params_enum_checked (0 : Nat) (fun n : Nat => n)
      (fun k => if k = "sortBy" then some "bogus" else none)).2.2.1
    "bogus" rfl (by decide) (by decide) (FilterVal.str "bogus")

theorem numEntry_mem_self {q : RawQuery} {k s : String}
    (hs : q k = some s) (hne : s ≠ "") :
    (k, FilterVal.num (parseIntJS s)) ∈ numEntry q k := by
  unfold numEntry
  rw [hs]
  simp [hne]

/-- C7: a non-empty `limit` or `offset` query parameter is stored in the
filters as the result of JS integer parsing of the raw string, with no range
validation, and the filters — including a NaN sentinel when the string does
not parse — are forwarded to the use case rather than rejected with a client
error (the status is never 400). -/
theorem claim7_numeric_params_parsed_not_validated {M D : Type}
    (execute : MarketFilters → Except ThrownError M) (toDto : M → D)
    (q : RawQuery) :
    (∀ s, q "limit" = some s → s ≠ "" →
      ("limit", FilterVal.num (parseIntJS s)) ∈ buildFilters q) ∧
    (∀ s, q "offset" = some s → s ≠ "" →
      ("offset", FilterVal.num (parseIntJS s)) ∈ buildFilters q) ∧
    (getMarketsRun execute toDto q).2 = [buildFilters q] ∧
    (getMarkets execute toDto q).status ≠ 400 := by
  refine ⟨?_, ?_, getMarketsRun_calls execute toDto q, ?_⟩
  · intro s hs hne
    unfold buildFilters
    simp only [List.mem_append]
    exact Or.inl (Or.inl (Or.inl (Or.inr (numEntry_mem_self hs hne))))
  · intro s hs hne
    unfold buildFilters
    simp only [List.mem_append]
    exact Or.inl (Or.inl (Or.inr (numEntry_mem_self hs hne)))
  · cases hx : execute (buildFilters q) <;> simp [getMarkets, hx]

theorem claim7_witness :
    ("limit", FilterVal.num JsNumber.nan) ∈ buildFilters
      (fun k => if k = "limit" then some "abc" else none) :=
  (by decide : parseIntJS "abc" = JsNumber.nan) ▸
    (claim7_numeric_params_parsed_not_validated
        (fun _ : MarketFilters => Except.ok (0 : Nat)) (fun n : Nat => n)
        (fun k => if k = "limit" then some "abc" else none)).1 "abc" rfl (by decide)

/-- C8: neither handler ever propagates an exception: for every raw input
and every collaborator outcome, each handler emits exactly one response
envelope, the one the pure model computes. -/
theorem claim8_exactly_one_envelope {M D : Type}
    (executeL : MarketFilters → Except ThrownError M)
    (executeI : String → Except ThrownError M) (toDto : M → D)
    (q : RawQuery) (market_id : Option String) :
    (getMarketsRun executeL toDto q).1 = [getMarkets executeL toDto q] ∧
    (getMarketByIdRun executeI toDto market_id).1 =
      [getMarketById executeI toDto market_id] ∧
    ((getMarketsRun executeL toDto q).1).length = 1 ∧
    ((getMarketByIdRun executeI toDto market_id).1).length = 1 := by
  have h1 : (getMarketsRun executeL toDto q).1 = [getMarkets executeL toDto q] := by
    cases hx : executeL (buildFilters q) <;> simp [getMarketsRun, getMarkets, hx]
  have h2 : (getMarketByIdRun executeI toDto market_id).1 =
      [getMarketById executeI toDto market_id] := by
    cases market_id with
    | none => rfl
    | some id =>
        by_cases hid : id = ""
        · subst hid; rfl
        · cases hx : executeI id with
          | ok r => simp [getMarketByIdRun, getMarketById, hid, hx]
          | error e => cases e <;> simp [getMarketByIdRun, getMarketById, hid, hx]
  exact ⟨h1, h2, by rw [h1]; rfl, by rw [h2]; rfl⟩

/-- C9: both handlers are deterministic — identical raw input and an
extensionally identical (deterministic) collaborator yield identical
response envelopes. -/
theorem claim9_deterministic {M D : Type}
    (e1 e2 : MarketFilters → Except ThrownError M)
    (f1 f2 : String → Except ThrownError M) (toDto : M → D)
    (q1 q2 : RawQuery) (market_id : Option String)
    (hq : ∀ k, q1 k = q2 k) (he : ∀ fs, e1 fs = e2 fs) (hf : ∀ s, f1 s = f2 s) :
    getMarkets e1 toDto q1 = getMarkets e2 toDto q2 ∧
    getMarketById f1 toDto market_id = getMarketById f2 toDto market_id := by
  have hq2 : q1 = q2 := funext hq
  have he2 : e1 = e2 := funext he
  have hf2 : f1 = f2 := funext hf
  subst hq2; subst he2; subst hf2
  exact ⟨rfl, rfl⟩

theorem claim9_witness :
    getMarkets (fun _ : MarketFilters => Except.ok (0 : Nat)) (fun n : Nat => n)
        (fun _ => none) =
      getMarkets (fun _ : MarketFilters => Except.ok (0 : Nat)) (fun n : Nat => n)
        (fun _ => none) ∧
    getMarketById (fun _ : String => Except.ok (0 : Nat)) (fun n : Nat => n)
        (some "m1") =
      getMarketById (fun _ : String => Except.ok (0 : Nat)) (fun n : Nat => n)
        (some "m1") :=
  claim9_deterministic _ _ _ _ _ _ _ (some "m1")
    (fun _ => rfl) (fun _ => rfl) (fun _ => rfl)

/-- C10: the identifier is validated only against emptiness — every
non-empty identifier, including pure whitespace, is forwarded verbatim to
the by-id use case and no 400 response is produced. -/
theorem claim10_nonempty_id_forwarded_verbatim {M D : Type}
    (execute : String → Except ThrownError M) (toDto : M → D)
    (id : String) (h : id ≠ "") :
    (getMarketByIdRun execute toDto (some id)).2 = [id] ∧
    (getMarketById execute toDto (some id)).status ≠ 400 := by
  constructor
  · cases hx : execute id with
    | ok r => simp [getMarketByIdRun, h, hx]
    | error e => cases e <;> simp [getMarketByIdRun, h, hx]
  · cases hx : execute id with
    | ok r => simp [getMarketById, h, hx]
    | error e => cases e <;> simp [getMarketById, h, hx]

theorem claim10_witness :
    (getMarketByIdRun (fun _ : String => Except.ok (0 : Nat)) (fun n : Nat => n)
      (some " ")).2 = [" "] ∧
    (getMarketById (fun _ : String => Except.ok (0 : Nat)) (fun n : Nat => n)
      (some " ")).status ≠ 400 :=
  claim10_nonempty_id_forwarded_verbatim _ _ " " (by decide)
